import Mathlib

/-!
Verification of the territorial-conquest game core (`war.c`).

The C program manipulates heap-allocated `Territory` records linked by
pointer adjacency.  We embed the heap as a list of territories indexed by
natural-number ids: a C pointer to a territory is an `Option Nat`
(`none` = NULL), and pointer identity becomes id equality.  Random dice
rolls are passed as explicit parameters.  Memory teardown is modelled with
an explicit trace of free events.
-/

namespace War

/-- `struct Territory`: the `nNeighbors` counter and the `neighbors` array
are modelled together as a single list of territory ids. -/
structure Territory where
  name : String
  owner : Int
  armies : Int
  neighbors : List Nat
deriving DecidableEq, Repr

/-- `struct Mission`. -/
structure Mission where
  description : String
  targetOwner : Int
deriving DecidableEq, Repr

/-- The heap of live territories: index `i` models the address of the
`i`-th allocated territory. -/
structure GameState where
  territories : List Territory
deriving DecidableEq, Repr

/-- Dereference a territory id (out-of-range reads give `none`). -/
def readTerr (s : GameState) (i : Nat) : Option Territory :=
  s.territories[i]?

/-- In-place mutation of the territory at id `i` (no-op when the id is not
allocated, which in the C source would be undefined behaviour). -/
def modifyTerr (s : GameState) (i : Nat) (g : Territory → Territory) : GameState :=
  match s.territories[i]? with
  | some t => { s with territories := s.territories.set i (g t) }
  | none => s

/-- `criarTerritorio`: allocates a territory with the given name, owner and
army count and an empty neighbor list (`nNeighbors = 0`,
`neighbors = NULL`).  Allocation failure aborts the C process and is not
modelled. -/
def criarTerritorio (nm : String) (owner armies : Int) : Territory :=
  { name := nm, owner := owner, armies := armies, neighbors := [] }

/-- `criarMissao`: allocates a mission record. -/
def criarMissao (desc : String) (targetOwner : Int) : Mission :=
  { description := desc, targetOwner := targetOwner }

/-- `adicionarVizinho`: appends the id `ni` to the neighbor array of the
territory at id `ti`, growing it by one slot. -/
def adicionarVizinho (s : GameState) (ti ni : Nat) : GameState :=
  modifyTerr s ti (fun u => { u with neighbors := u.neighbors ++ [ni] })

/-- The neighbor scan of `validarAtaque`: walks the array in order and
short-circuits on the first pointer equal to `ti`. -/
def isNeighborOf (nbrs : List Nat) (ti : Nat) : Bool :=
  match nbrs with
  | [] => false
  | x :: rest => if x = ti then true else isNeighborOf rest ti

/-- `validarAtaque(from, to, playerId)`: pointer arguments are
`Option Nat`; a `none` pointer is NULL.  Mirrors the C checks in order:
NULL check, `from->owner != playerId`, `to->owner == playerId`,
`from->armies < 2`, then the neighbor scan. -/
def validarAtaque (s : GameState) (fromP toP : Option Nat) (playerId : Int) : Bool :=
  match fromP, toP with
  | some fi, some ti =>
    match readTerr s fi, readTerr s ti with
    | some f, some t =>
      if f.owner ≠ playerId then false
      else if t.owner = playerId then false
      else if f.armies < 2 then false
      else isNeighborOf f.neighbors ti
    | _, _ => false
  | _, _ => false

/-- `resolverAtaque(from, to)` with the two `rand() % 6 + 1` draws passed
in as `attackRoll` and `defendRoll`.  The heap mutations are performed in
the source's order: on an attacker win, `to->armies -= 1`, then if
`to->armies <= 0` the conquest block runs (`to->owner = from->owner`;
`from->armies -= 1`; `to->armies = 1`); on a defender win (ties included)
only `from->armies -= 1` runs.  Console output is dropped. -/
def resolverAtaque (s : GameState) (fi ti : Nat) (attackRoll defendRoll : Int) : GameState :=
  if attackRoll > defendRoll then
    let s1 := modifyTerr s ti (fun u => { u with armies := u.armies - 1 })
    match readTerr s1 ti with
    | none => s1
    | some t1 =>
      if t1.armies ≤ 0 then
        match readTerr s1 fi with
        | none => s1
        | some f1 =>
          let s2 := modifyTerr s1 ti (fun u => { u with owner := f1.owner })
          let s3 := modifyTerr s2 fi (fun u => { u with armies := u.armies - 1 })
          modifyTerr s3 ti (fun u => { u with armies := 1 })
      else s1
  else
    modifyTerr s fi (fun u => { u with armies := u.armies - 1 })

/-- One `free(...)` call performed by `liberarMemoria`, recorded so that
"no release happens" is an observable statement. -/
inductive FreeEvent where
  | terrName (i : Nat)
  | terrNeighbors (i : Nat)
  | terrRecord (i : Nat)
  | terrArray
  | missDesc (j : Nat)
  | missRecord (j : Nat)
  | missArray
deriving DecidableEq, Repr

/-- Whether a free event touches the territory registry. -/
def FreeEvent.isTerr : FreeEvent → Bool
  | .terrName _ => true
  | .terrNeighbors _ => true
  | .terrRecord _ => true
  | .terrArray => true
  | _ => false

/-- Whether a free event touches the mission registry. -/
def FreeEvent.isMiss : FreeEvent → Bool
  | .missDesc _ => true
  | .missRecord _ => true
  | .missArray => true
  | _ => false

/-- The caller-visible memory handled by `liberarMemoria`: each registry is
a nullable array (`none` = NULL pointer) of nullable entity slots
(`none` = NULL slot). -/
structure CMem where
  territories : Option (List (Option Territory))
  missions : Option (List (Option Mission))
deriving DecidableEq, Repr

/-- The territory loop of `liberarMemoria`: for `i` in `[start, start+count)`,
skip NULL slots, otherwise free the name, free the neighbor array when it
is non-NULL (empty list = NULL, as set by `criarTerritorio`), free the
record and NULL the slot. -/
def freeTerrSlots (arr : List (Option Territory)) (start : Nat) : Nat → List (Option Territory) × List FreeEvent
  | 0 => (arr, [])
  | count + 1 =>
    let step : List (Option Territory) × List FreeEvent :=
      match arr[start]? with
      | none => (arr, [])
      | some none => (arr, [])
      | some (some t) =>
        (arr.set start none,
          FreeEvent.terrName start ::
            (if t.neighbors = [] then [] else [FreeEvent.terrNeighbors start]) ++
              [FreeEvent.terrRecord start])
    let rest := freeTerrSlots step.1 (start + 1) count
    (rest.1, step.2 ++ rest.2)

/-- The mission loop of `liberarMemoria`, in the same style. -/
def freeMissSlots (arr : List (Option Mission)) (start : Nat) : Nat → List (Option Mission) × List FreeEvent
  | 0 => (arr, [])
  | count + 1 =>
    let step : List (Option Mission) × List FreeEvent :=
      match arr[start]? with
      | none => (arr, [])
      | some none => (arr, [])
      | some (some _) =>
        (arr.set start none, [FreeEvent.missDesc start, FreeEvent.missRecord start])
    let rest := freeMissSlots step.1 (start + 1) count
    (rest.1, step.2 ++ rest.2)

/-- `liberarMemoria(territories, nTerritories, missions, nMissions)`: a
NULL registry is skipped entirely; a non-NULL registry has each of its
first `n` slots freed and is then freed itself, leaving the caller with no
registry (`none`).  Returns the resulting memory and the trace of free
events; the C function cannot fail and reports nothing. -/
def liberarMemoria (territories : Option (List (Option Territory))) (nTerritories : Nat)
    (missions : Option (List (Option Mission))) (nMissions : Nat) : CMem × List FreeEvent :=
  let tPart : Option (List (Option Territory)) × List FreeEvent :=
    match territories with
    | none => (none, [])
    | some arr =>
      let loop := freeTerrSlots arr 0 nTerritories
      (none, loop.2 ++ [FreeEvent.terrArray])
  let mPart : Option (List (Option Mission)) × List FreeEvent :=
    match missions with
    | none => (none, [])
    | some arr =>
      let loop := freeMissSlots arr 0 nMissions
      (none, loop.2 ++ [FreeEvent.missArray])
  ({ territories := tPart.1, missions := mPart.1 }, tPart.2 ++ mPart.2)

/-! Basic facts about the list-indexed heap. -/

theorem getq_set_self {α : Type} (l : List α) (i : Nat) (x : α) (h : i < l.length) :
    (l.set i x)[i]? = some x := by
  induction l generalizing i with
  | nil => simp at h
  | cons a as ih =>
    cases i with
    | zero => simp [List.set]
    | succ n =>
      simp only [List.set, List.getElem?_cons_succ]
      exact ih n (by simpa using h)

theorem getq_set_ne {α : Type} (l : List α) (i j : Nat) (x : α) (h : i ≠ j) :
    (l.set i x)[j]? = l[j]? := by
  induction l generalizing i j with
  | nil => simp
  | cons a as ih =>
    cases i with
    | zero =>
      cases j with
      | zero => exact absurd rfl h
      | succ m => simp [List.set]
    | succ n =>
      cases j with
      | zero => simp [List.set]
      | succ m =>
        simp only [List.set, List.getElem?_cons_succ]
        exact ih n m (fun hc => h (by rw [hc]))

theorem getq_some_lt {α : Type} (l : List α) (i : Nat) (x : α) (h : l[i]? = some x) :
    i < l.length := by
  by_contra hge
  rw [List.getElem?_eq_none (Nat.le_of_not_lt hge)] at h
  exact Option.noConfusion h

theorem readTerr_modifyTerr_self (s : GameState) (i : Nat) (g : Territory → Territory)
    (t : Territory) (h : readTerr s i = some t) :
    readTerr (modifyTerr s i g) i = some (g t) := by
  unfold readTerr at h ⊢
  unfold modifyTerr
  rw [h]
  exact getq_set_self _ i (g t) (getq_some_lt _ i t h)

theorem readTerr_modifyTerr_ne (s : GameState) (i j : Nat) (g : Territory → Territory)
    (h : i ≠ j) : readTerr (modifyTerr s i g) j = readTerr s j := by
  unfold readTerr modifyTerr
  cases hc : s.territories[i]? with
  | none => rfl
  | some t => exact getq_set_ne _ i j (g t) h

theorem length_modifyTerr (s : GameState) (i : Nat) (g : Territory → Territory) :
    (modifyTerr s i g).territories.length = s.territories.length := by
  unfold modifyTerr
  cases hc : s.territories[i]? with
  | none => rfl
  | some t => simp

theorem isNeighborOf_iff (nbrs : List Nat) (ti : Nat) :
    isNeighborOf nbrs ti = true ↔ ti ∈ nbrs := by
  induction nbrs with
  | nil => simp [isNeighborOf]
  | cons x rest ih =>
    by_cases hx : x = ti
    · simp [isNeighborOf, hx]
    · simp only [isNeighborOf, if_neg hx, ih, List.mem_cons]
      constructor
      · exact Or.inr
      · rintro (h | h)
        · exact absurd h.symm hx
        · exact h

/-- Characterization of `validarAtaque` when both pointers dereference. -/
theorem validarAtaque_iff (s : GameState) (fi ti : Nat) (f t : Territory) (p : Int)
    (hf : readTerr s fi = some f) (ht : readTerr s ti = some t) :
    validarAtaque s (some fi) (some ti) p = true ↔
      (f.owner = p ∧ t.owner ≠ p ∧ 2 ≤ f.armies ∧ ti ∈ f.neighbors) := by
  simp only [validarAtaque, hf, ht]
  by_cases h1 : f.owner = p
  · by_cases h2 : t.owner = p
    · simp [h1, h2]
    · by_cases h3 : f.armies < 2
      · simp [h1, h2, h3]
      · simp [h1, h2, h3, isNeighborOf_iff]
        omega
  · simp [h1]

/-- Defender wins (ties included): only `from->armies -= 1` runs. -/
theorem resolverAtaque_eq_def (s : GameState) (fi ti : Nat) (a d : Int) (had : ¬ d < a) :
    resolverAtaque s fi ti a d = modifyTerr s fi (fun u => { u with armies := u.armies - 1 }) := by
  unfold resolverAtaque
  rw [if_neg had]

/-- Attacker wins without conquering: only `to->armies -= 1` runs. -/
theorem resolverAtaque_eq_hit (s : GameState) (fi ti : Nat) (a d : Int) (t : Territory)
    (ht : readTerr s ti = some t) (had : d < a) (hc : 0 < t.armies - 1) :
    resolverAtaque s fi ti a d = modifyTerr s ti (fun u => { u with armies := u.armies - 1 }) := by
  have hti : readTerr (modifyTerr s ti (fun u => { u with armies := u.armies - 1 })) ti
      = some { t with armies := t.armies - 1 } := readTerr_modifyTerr_self s ti _ t ht
  unfold resolverAtaque
  rw [if_pos had]
  simp only [hti]
  rw [if_neg (by omega)]

/-- Attacker wins and conquers: the four heap writes run in source order. -/
theorem resolverAtaque_eq_conq (s : GameState) (fi ti : Nat) (a d : Int) (f t : Territory)
    (hf : readTerr s fi = some f) (ht : readTerr s ti = some t) (hne : fi ≠ ti)
    (had : d < a) (hc : t.armies - 1 ≤ 0) :
    resolverAtaque s fi ti a d =
      modifyTerr (modifyTerr (modifyTerr
        (modifyTerr s ti (fun u => { u with armies := u.armies - 1 }))
        ti (fun u => { u with owner := f.owner }))
        fi (fun u => { u with armies := u.armies - 1 }))
        ti (fun u => { u with armies := 1 }) := by
  have hti : readTerr (modifyTerr s ti (fun u => { u with armies := u.armies - 1 })) ti
      = some { t with armies := t.armies - 1 } := readTerr_modifyTerr_self s ti _ t ht
  have hfi : readTerr (modifyTerr s ti (fun u => { u with armies := u.armies - 1 })) fi
      = some f := by
    rw [readTerr_modifyTerr_ne s ti fi _ (Ne.symm hne), hf]
  unfold resolverAtaque
  rw [if_pos had]
  simp only [hti, hfi]
  rw [if_pos (by omega)]

/-- Full read-level characterization of `resolverAtaque` on two distinct
dereferenceable territories: the three outcome branches plus the frame on
every other id. -/
theorem resolverAtaque_reads (s : GameState) (fi ti : Nat) (a d : Int) (f t : Territory)
    (hf : readTerr s fi = some f) (ht : readTerr s ti = some t) (hne : fi ≠ ti) :
    ((d < a ∧ t.armies - 1 ≤ 0) →
       readTerr (resolverAtaque s fi ti a d) fi = some { f with armies := f.armies - 1 } ∧
       readTerr (resolverAtaque s fi ti a d) ti = some { t with owner := f.owner, armies := 1 }) ∧
    ((d < a ∧ 0 < t.armies - 1) →
       readTerr (resolverAtaque s fi ti a d) fi = some f ∧
       readTerr (resolverAtaque s fi ti a d) ti = some { t with armies := t.armies - 1 }) ∧
    (¬ d < a →
       readTerr (resolverAtaque s fi ti a d) fi = some { f with armies := f.armies - 1 } ∧
       readTerr (resolverAtaque s fi ti a d) ti = some t) ∧
    (∀ j, j ≠ fi → j ≠ ti → readTerr (resolverAtaque s fi ti a d) j = readTerr s j) := by
  have hne' : ti ≠ fi := Ne.symm hne
  have hA_ti : readTerr (modifyTerr s ti (fun u => { u with armies := u.armies - 1 })) ti
      = some { t with armies := t.armies - 1 } := readTerr_modifyTerr_self s ti _ t ht
  have hA_fi : readTerr (modifyTerr s ti (fun u => { u with armies := u.armies - 1 })) fi
      = some f := by rw [readTerr_modifyTerr_ne s ti fi _ hne', hf]
  refine ⟨?_, ?_, ?_, ?_⟩
  · rintro ⟨had, hc⟩
    rw [resolverAtaque_eq_conq s fi ti a d f t hf ht hne had hc]
    have hB_ti : readTerr (modifyTerr
        (modifyTerr s ti (fun u => { u with armies := u.armies - 1 }))
        ti (fun u => { u with owner := f.owner })) ti
        = some { t with owner := f.owner, armies := t.armies - 1 } :=
      readTerr_modifyTerr_self _ ti _ _ hA_ti
    have hB_fi : readTerr (modifyTerr
        (modifyTerr s ti (fun u => { u with armies := u.armies - 1 }))
        ti (fun u => { u with owner := f.owner })) fi = some f := by
      rw [readTerr_modifyTerr_ne _ ti fi _ hne', hA_fi]
    have hC_fi : readTerr (modifyTerr (modifyTerr
        (modifyTerr s ti (fun u => { u with armies := u.armies - 1 }))
        ti (fun u => { u with owner := f.owner }))
        fi (fun u => { u with armies := u.armies - 1 })) fi
        = some { f with armies := f.armies - 1 } :=
      readTerr_modifyTerr_self _ fi _ _ hB_fi
    have hC_ti : readTerr (modifyTerr (modifyTerr
        (modifyTerr s ti (fun u => { u with armies := u.armies - 1 }))
        ti (fun u => { u with owner := f.owner }))
        fi (fun u => { u with armies := u.armies - 1 })) ti
        = some { t with owner := f.owner, armies := t.armies - 1 } := by
      rw [readTerr_modifyTerr_ne _ fi ti _ hne, hB_ti]
    constructor
    · rw [readTerr_modifyTerr_ne _ ti fi _ hne', hC_fi]
    · rw [readTerr_modifyTerr_self _ ti _ _ hC_ti]
  · rintro ⟨had, hc⟩
    rw [resolverAtaque_eq_hit s fi ti a d t ht had hc]
    exact ⟨hA_fi, hA_ti⟩
  · intro had
    rw [resolverAtaque_eq_def s fi ti a d had]
    constructor
    · exact readTerr_modifyTerr_self s fi _ f hf
    · rw [readTerr_modifyTerr_ne s fi ti _ hne, ht]
  · intro j hjfi hjti
    have hjfi' : fi ≠ j := Ne.symm hjfi
    have hjti' : ti ≠ j := Ne.symm hjti
    by_cases had : d < a
    · by_cases hc : t.armies - 1 ≤ 0
      · rw [resolverAtaque_eq_conq s fi ti a d f t hf ht hne had hc,
          readTerr_modifyTerr_ne _ ti j _ hjti',
          readTerr_modifyTerr_ne _ fi j _ hjfi',
          readTerr_modifyTerr_ne _ ti j _ hjti',
          readTerr_modifyTerr_ne _ ti j _ hjti']
      · rw [resolverAtaque_eq_hit s fi ti a d t ht had (by omega),
          readTerr_modifyTerr_ne _ ti j _ hjti']
    · rw [resolverAtaque_eq_def s fi ti a d had,
        readTerr_modifyTerr_ne _ fi j _ hjfi']

/-! The concrete game built by `main`: three territories with the
adjacency already wired (used to instantiate the theorems below). -/

def tAmazonia : Territory :=
  { name := "Amazonia", owner := 1, armies := 5, neighbors := [1] }

def tSertao : Territory :=
  { name := "Sertao", owner := 2, armies := 3, neighbors := [0, 2] }

def tLitoral : Territory :=
  { name := "Litoral", owner := 0, armies := 2, neighbors := [1] }

def exemploEstado : GameState :=
  { territories := [tAmazonia, tSertao, tLitoral] }

/-- C1: `canAttack(from, to, p)` returns true iff both pointers are
non-null, `from.owner = p`, `to.owner ≠ p`, `from.armies ≥ 2`, and `to`
occurs in `from`'s neighbor sequence; if any condition fails (including a
NULL argument) the result is false. -/
theorem validarAtaque_characterization (s : GameState) (fi ti : Nat) (f t : Territory)
    (p : Int) (hf : readTerr s fi = some f) (ht : readTerr s ti = some t) :
    (validarAtaque s (some fi) (some ti) p = true ↔
      (f.owner = p ∧ t.owner ≠ p ∧ 2 ≤ f.armies ∧ ti ∈ f.neighbors)) ∧
    (∀ q, validarAtaque s none q p = false) ∧
    (∀ q, validarAtaque s q none p = false) := by
  refine ⟨validarAtaque_iff s fi ti f t p hf ht, ?_, ?_⟩
  · intro q
    cases q <;> rfl
  · intro q
    cases q <;> rfl

/-- Witness for C1: in the `main` scenario, player 1 attacking from
Amazonia (id 0) into Sertao (id 1) satisfies exactly the four
conditions. -/
theorem validarAtaque_characterization_witness :
    validarAtaque exemploEstado (some 0) (some 1) 1 = true ↔
      (tAmazonia.owner = 1 ∧ tSertao.owner ≠ 1 ∧ 2 ≤ tAmazonia.armies ∧
        1 ∈ tAmazonia.neighbors) :=
  (validarAtaque_characterization exemploEstado 0 1 tAmazonia tSertao 1 rfl rfl).1

/-- C10: self-attack is always rejected, because `from.owner == p` and
`to.owner != p` cannot both hold for the same territory (and a NULL
pointer is rejected outright). -/
theorem validarAtaque_self_false (s : GameState) (i : Nat) (p : Int) :
    validarAtaque s (some i) (some i) p = false := by
  unfold validarAtaque
  cases hc : readTerr s i with
  | none => simp [hc]
  | some t =>
    by_cases h : t.owner = p <;> simp [hc, h]

/-- C7: `adicionarVizinho(t, n)` appends `n` to `t`'s neighbor array:
the count grows by exactly 1, the new last entry is `n`, the earlier
entries are unchanged, and no other territory (in particular `n` itself,
when it is a different territory) is modified. -/
theorem adicionarVizinho_append (s : GameState) (ti ni : Nat) (t : Territory)
    (h : readTerr s ti = some t) :
    readTerr (adicionarVizinho s ti ni) ti
      = some { t with neighbors := t.neighbors ++ [ni] } ∧
    (t.neighbors ++ [ni]).length = t.neighbors.length + 1 ∧
    (t.neighbors ++ [ni]).getLast? = some ni ∧
    (t.neighbors ++ [ni]).take t.neighbors.length = t.neighbors ∧
    (∀ j, j ≠ ti → readTerr (adicionarVizinho s ti ni) j = readTerr s j) := by
  refine ⟨readTerr_modifyTerr_self s ti _ t h, by simp, ?_, ?_, ?_⟩
  · simp
  · simp
  · intro j hj
    exact readTerr_modifyTerr_ne s ti j _ (Ne.symm hj)

/-- Witness for C7: wiring Litoral (id 2) to Amazonia (id 0) in the
`main` scenario appends id 0 to Litoral's neighbor array. -/
theorem adicionarVizinho_append_witness :
    readTerr (adicionarVizinho exemploEstado 2 0) 2
      = some { tLitoral with neighbors := tLitoral.neighbors ++ [0] } :=
  (adicionarVizinho_append exemploEstado 2 0 tLitoral rfl).1

/-- C2: for rolls in `[1,6]`, `resolverAtaque` decrements `to.armies` by 1
when the attacker's roll is higher, conquering (`to.owner := from.owner`,
`from.armies -= 1`, `to.armies := 1`) when the defender's count drops to
`<= 0`; otherwise (defender wins ties) it decrements `from.armies` by 1
and leaves `to` unchanged. -/
theorem resolverAtaque_outcomes (s : GameState) (fi ti : Nat) (a d : Int) (f t : Territory)
    (hf : readTerr s fi = some f) (ht : readTerr s ti = some t) (hne : fi ≠ ti)
    (ha1 : 1 ≤ a) (ha6 : a ≤ 6) (hd1 : 1 ≤ d) (hd6 : d ≤ 6) :
    (d < a → 0 < t.armies - 1 →
       readTerr (resolverAtaque s fi ti a d) ti = some { t with armies := t.armies - 1 } ∧
       readTerr (resolverAtaque s fi ti a d) fi = some f) ∧
    (d < a → t.armies - 1 ≤ 0 →
       readTerr (resolverAtaque s fi ti a d) ti
         = some { t with owner := f.owner, armies := 1 } ∧
       readTerr (resolverAtaque s fi ti a d) fi = some { f with armies := f.armies - 1 }) ∧
    (a ≤ d →
       readTerr (resolverAtaque s fi ti a d) fi = some { f with armies := f.armies - 1 } ∧
       readTerr (resolverAtaque s fi ti a d) ti = some t) := by
  obtain ⟨hconq, hhit, hdef, _⟩ := resolverAtaque_reads s fi ti a d f t hf ht hne
  refine ⟨?_, ?_, ?_⟩
  · intro h1 h2
    obtain ⟨hx, hy⟩ := hhit ⟨h1, h2⟩
    exact ⟨hy, hx⟩
  · intro h1 h2
    obtain ⟨hx, hy⟩ := hconq ⟨h1, h2⟩
    exact ⟨hy, hx⟩
  · intro h1
    exact hdef (by omega)

/-- Witness for C2: rolls 6 against 1 in the `main` scenario make Sertao
(3 armies) lose one army while Amazonia is untouched. -/
theorem resolverAtaque_outcomes_witness :
    readTerr (resolverAtaque exemploEstado 0 1 6 1) 1
      = some { tSertao with armies := tSertao.armies - 1 } ∧
    readTerr (resolverAtaque exemploEstado 0 1 6 1) 0 = some tAmazonia :=
  (resolverAtaque_outcomes exemploEstado 0 1 6 1 tAmazonia tSertao rfl rfl (by decide)
    (by decide) (by decide) (by decide) (by decide)).1 (by decide) (by decide)

/-- C3: one call to `resolverAtaque` either decrements exactly one of the
two army counts by 1 with no ownership change, or performs the full
conquest transition (`to.owner := from.owner`, `to.armies := 1`,
`from.armies` down by 1); a non-conquest decrement and an ownership change
never happen in the same call. -/
theorem resolverAtaque_exclusive_effect (s : GameState) (fi ti : Nat) (a d : Int)
    (f t : Territory) (hf : readTerr s fi = some f) (ht : readTerr s ti = some t)
    (hne : fi ≠ ti) :
    (readTerr (resolverAtaque s fi ti a d) fi = some f ∧
       readTerr (resolverAtaque s fi ti a d) ti = some { t with armies := t.armies - 1 }) ∨
    (readTerr (resolverAtaque s fi ti a d) fi = some { f with armies := f.armies - 1 } ∧
       readTerr (resolverAtaque s fi ti a d) ti = some t) ∨
    (readTerr (resolverAtaque s fi ti a d) fi = some { f with armies := f.armies - 1 } ∧
       readTerr (resolverAtaque s fi ti a d) ti
         = some { t with owner := f.owner, armies := 1 }) := by
  obtain ⟨hconq, hhit, hdef, _⟩ := resolverAtaque_reads s fi ti a d f t hf ht hne
  by_cases had : d < a
  · by_cases hc : t.armies - 1 ≤ 0
    · exact Or.inr (Or.inr (hconq ⟨had, hc⟩))
    · exact Or.inl (hhit ⟨had, by omega⟩)
  · exact Or.inr (Or.inl (hdef had))

/-- Witness for C3: rolls 1 against 6 (defender wins) in the `main`
scenario land in one of the three allowed outcomes. -/
theorem resolverAtaque_exclusive_effect_witness :
    (readTerr (resolverAtaque exemploEstado 0 1 1 6) 0 = some tAmazonia ∧
       readTerr (resolverAtaque exemploEstado 0 1 1 6) 1
         = some { tSertao with armies := tSertao.armies - 1 }) ∨
    (readTerr (resolverAtaque exemploEstado 0 1 1 6) 0
         = some { tAmazonia with armies := tAmazonia.armies - 1 } ∧
       readTerr (resolverAtaque exemploEstado 0 1 1 6) 1 = some tSertao) ∨
    (readTerr (resolverAtaque exemploEstado 0 1 1 6) 0
         = some { tAmazonia with armies := tAmazonia.armies - 1 } ∧
       readTerr (resolverAtaque exemploEstado 0 1 1 6) 1
         = some { tSertao with owner := tAmazonia.owner, armies := 1 }) :=
  resolverAtaque_exclusive_effect exemploEstado 0 1 1 6 tAmazonia tSertao rfl rfl (by decide)

/-- C6: `resolverAtaque` modifies at most `from.armies`, `to.armies` and
`to.owner`: every other territory id reads back unchanged, and the owner,
name and neighbor array of `from` as well as the name and neighbor array
of `to` are preserved. -/
theorem resolverAtaque_frame (s : GameState) (fi ti : Nat) (a d : Int) (f t : Territory)
    (hf : readTerr s fi = some f) (ht : readTerr s ti = some t) (hne : fi ≠ ti) :
    (∀ j, j ≠ fi → j ≠ ti → readTerr (resolverAtaque s fi ti a d) j = readTerr s j) ∧
    (readTerr (resolverAtaque s fi ti a d) fi).map Territory.owner = some f.owner ∧
    (readTerr (resolverAtaque s fi ti a d) fi).map Territory.name = some f.name ∧
    (readTerr (resolverAtaque s fi ti a d) fi).map Territory.neighbors = some f.neighbors ∧
    (readTerr (resolverAtaque s fi ti a d) ti).map Territory.name = some t.name ∧
    (readTerr (resolverAtaque s fi ti a d) ti).map Territory.neighbors = some t.neighbors := by
  obtain ⟨hconq, hhit, hdef, hframe⟩ := resolverAtaque_reads s fi ti a d f t hf ht hne
  refine ⟨hframe, ?_⟩
  by_cases had : d < a
  · by_cases hc : t.armies - 1 ≤ 0
    · obtain ⟨hx, hy⟩ := hconq ⟨had, hc⟩
      rw [hx, hy]
      exact ⟨rfl, rfl, rfl, rfl, rfl⟩
    · obtain ⟨hx, hy⟩ := hhit ⟨had, by omega⟩
      rw [hx, hy]
      exact ⟨rfl, rfl, rfl, rfl, rfl⟩
  · obtain ⟨hx, hy⟩ := hdef had
    rw [hx, hy]
    exact ⟨rfl, rfl, rfl, rfl, rfl⟩

/-- Witness for C6: after an attacker-win roll in the `main` scenario,
Litoral (id 2) is untouched and Amazonia keeps its owner. -/
theorem resolverAtaque_frame_witness :
    readTerr (resolverAtaque exemploEstado 0 1 6 1) 2 = readTerr exemploEstado 2 ∧
    (readTerr (resolverAtaque exemploEstado 0 1 6 1) 0).map Territory.owner
      = some tAmazonia.owner :=
  ⟨(resolverAtaque_frame exemploEstado 0 1 6 1 tAmazonia tSertao rfl rfl
      (by decide)).1 2 (by decide) (by decide),
   (resolverAtaque_frame exemploEstado 0 1 6 1 tAmazonia tSertao rfl rfl (by decide)).2.1⟩

/-- C4: conquest happens iff the attacker wins the roll and the defender
would be at `<= 0` armies after losing one; in particular a defender with
one army is conquered by any winning roll.  (Stated for a genuine transfer,
i.e. `to` not already owned by `from`'s owner, which is what `canAttack`
guarantees before any combat.) -/
theorem resolverAtaque_conquest_iff (s : GameState) (fi ti : Nat) (a d : Int)
    (f t : Territory) (hf : readTerr s fi = some f) (ht : readTerr s ti = some t)
    (hne : fi ≠ ti) (howner : t.owner ≠ f.owner) :
    ((d < a ∧ t.armies - 1 ≤ 0) ↔
      (readTerr (resolverAtaque s fi ti a d) ti
           = some { t with owner := f.owner, armies := 1 } ∧
       readTerr (resolverAtaque s fi ti a d) fi
           = some { f with armies := f.armies - 1 })) ∧
    (t.armies = 1 → d < a →
      readTerr (resolverAtaque s fi ti a d) ti
          = some { t with owner := f.owner, armies := 1 } ∧
      readTerr (resolverAtaque s fi ti a d) fi
          = some { f with armies := f.armies - 1 }) := by
  obtain ⟨hconq, hhit, hdef, _⟩ := resolverAtaque_reads s fi ti a d f t hf ht hne
  constructor
  · constructor
    · rintro ⟨had, hc⟩
      obtain ⟨hx, hy⟩ := hconq ⟨had, hc⟩
      exact ⟨hy, hx⟩
    · rintro ⟨hti2, hfi2⟩
      by_cases had : d < a
      · by_cases hc : t.armies - 1 ≤ 0
        · exact ⟨had, hc⟩
        · obtain ⟨-, hy⟩ := hhit ⟨had, by omega⟩
          rw [hy] at hti2
          have heq := Option.some.inj hti2
          exact absurd (congrArg Territory.owner heq) howner
      · obtain ⟨-, hy⟩ := hdef had
        rw [hy] at hti2
        have heq := Option.some.inj hti2
        exact absurd (congrArg Territory.owner heq) howner
  · intro h1 had
    obtain ⟨hx, hy⟩ := hconq ⟨had, by omega⟩
    exact ⟨hy, hx⟩

/-- The `main` scenario with Sertao reduced to a single army, to exercise
the conquest branch. -/
def exemploEstadoConq : GameState :=
  { territories := [tAmazonia, { tSertao with armies := 1 }, tLitoral] }

/-- Witness for C4: Sertao at 1 army, attacker rolls 6 against 1 — Sertao
is conquered, keeps exactly 1 army under the new owner, and Amazonia loses
one army. -/
theorem resolverAtaque_conquest_iff_witness :
    readTerr (resolverAtaque exemploEstadoConq 0 1 6 1) 1
        = some { { tSertao with armies := 1 } with owner := tAmazonia.owner, armies := 1 } ∧
    readTerr (resolverAtaque exemploEstadoConq 0 1 6 1) 0
        = some { tAmazonia with armies := tAmazonia.armies - 1 } :=
  (resolverAtaque_conquest_iff exemploEstadoConq 0 1 6 1 tAmazonia
    { tSertao with armies := 1 } rfl rfl (by decide) (by decide)).2 rfl (by decide)

/-- Every territory of the `main` scenario starts with a non-negative army
count. -/
theorem exemplo_nonneg : ∀ j u, readTerr exemploEstado j = some u → 0 ≤ u.armies := by
  intro j u h
  unfold readTerr exemploEstado at h
  rcases j with _ | _ | _ | n
  · obtain rfl : tAmazonia = u := Option.some.inj h
    decide
  · obtain rfl : tSertao = u := Option.some.inj h
    decide
  · obtain rfl : tLitoral = u := Option.some.inj h
    decide
  · exact Option.noConfusion h

/-- C5: when the attack was validated (`canAttack` true for the owner of
`from`, hence `from.armies >= 2`) and no army count is negative before the
call, no army count is negative after the call either: the transient
negative value inside the conquest branch is never caller-observable. -/
theorem resolverAtaque_nonneg (s : GameState) (fi ti : Nat) (a d : Int) (f t : Territory)
    (hf : readTerr s fi = some f) (ht : readTerr s ti = some t)
    (hcan : validarAtaque s (some fi) (some ti) f.owner = true)
    (hall : ∀ j u, readTerr s j = some u → 0 ≤ u.armies) :
    ∀ j u, readTerr (resolverAtaque s fi ti a d) j = some u → 0 ≤ u.armies := by
  obtain ⟨-, howner, harm2, -⟩ := (validarAtaque_iff s fi ti f t f.owner hf ht).mp hcan
  have hne : fi ≠ ti := by
    intro hEq
    rw [hEq, ht] at hf
    have heq := Option.some.inj hf
    exact howner (by rw [heq])
  have ht0 : 0 ≤ t.armies := hall ti t ht
  obtain ⟨hconq, hhit, hdef, hframe⟩ := resolverAtaque_reads s fi ti a d f t hf ht hne
  intro j u hu
  by_cases hjfi : j = fi
  · subst hjfi
    by_cases had : d < a
    · by_cases hc : t.armies - 1 ≤ 0
      · obtain ⟨hx, -⟩ := hconq ⟨had, hc⟩
        rw [hx] at hu
        obtain h := Option.some.inj hu
        have harm : u.armies = f.armies - 1 := by rw [← h]
        omega
      · obtain ⟨hx, -⟩ := hhit ⟨had, by omega⟩
        rw [hx] at hu
        obtain h := Option.some.inj hu
        have harm : u.armies = f.armies := by rw [← h]
        omega
    · obtain ⟨hx, -⟩ := hdef had
      rw [hx] at hu
      obtain h := Option.some.inj hu
      have harm : u.armies = f.armies - 1 := by rw [← h]
      omega
  · by_cases hjti : j = ti
    · subst hjti
      by_cases had : d < a
      · by_cases hc : t.armies - 1 ≤ 0
        · obtain ⟨-, hy⟩ := hconq ⟨had, hc⟩
          rw [hy] at hu
          obtain h := Option.some.inj hu
          have harm : u.armies = 1 := by rw [← h]
          omega
        · obtain ⟨-, hy⟩ := hhit ⟨had, by omega⟩
          rw [hy] at hu
          obtain h := Option.some.inj hu
          have harm : u.armies = t.armies - 1 := by rw [← h]
          omega
      · obtain ⟨-, hy⟩ := hdef had
        rw [hy] at hu
        obtain h := Option.some.inj hu
        have harm : u.armies = t.armies := by rw [← h]
        omega
    · rw [hframe j hjfi hjti] at hu
      exact hall j u hu

/-- Witness for C5: in the `main` scenario with rolls 6 against 1, the
defender's new army count stays non-negative. -/
theorem resolverAtaque_nonneg_witness :
    (0 : Int) ≤ ({ tSertao with armies := tSertao.armies - 1 } : Territory).armies :=
  resolverAtaque_nonneg exemploEstado 0 1 6 1 tAmazonia tSertao rfl rfl (by decide)
    exemplo_nonneg 1 { tSertao with armies := tSertao.armies - 1 } (by decide)

/-- Counterexample for C8 as frozen: `criarTerritorio` stores the army
argument verbatim, so a negative input yields a territory with negative
armies immediately after creation. -/
theorem criarTerritorio_neg_counterexample :
    ¬ (0 ≤ (criarTerritorio "A" 0 (-1)).armies) := by decide

/-- C8 (amended): a freshly created territory always has an empty neighbor
sequence, and its army count equals the input, hence is non-negative
whenever the input is. -/
theorem criarTerritorio_amended (nm : String) (o a : Int) :
    (criarTerritorio nm o a).neighbors = [] ∧
    (criarTerritorio nm o a).armies = a ∧
    (0 ≤ a → 0 ≤ (criarTerritorio nm o a).armies) :=
  ⟨rfl, rfl, fun h => h⟩

/-- Witness for C8 (amended) at a concrete creation. -/
theorem criarTerritorio_amended_witness :
    (criarTerritorio "Base" 3 4).neighbors = [] ∧
    (criarTerritorio "Base" 3 4).armies = 4 ∧
    0 ≤ (criarTerritorio "Base" 3 4).armies :=
  ⟨(criarTerritorio_amended "Base" 3 4).1, (criarTerritorio_amended "Base" 3 4).2.1,
    (criarTerritorio_amended "Base" 3 4).2.2 (by decide)⟩

/-- The territory loop never emits a mission-registry free event. -/
theorem freeTerrSlots_no_miss (arr : List (Option Territory)) (i n : Nat) :
    (freeTerrSlots arr i n).2.filter FreeEvent.isMiss = [] := by
  induction n generalizing arr i with
  | zero => rfl
  | succ m ih =>
    simp only [freeTerrSlots]
    cases hc : arr[i]? with
    | none => simpa using ih arr (i + 1)
    | some o =>
      cases o with
      | none => simpa using ih arr (i + 1)
      | some t =>
        by_cases hnb : t.neighbors = []
        · simp [hnb, List.filter_append, FreeEvent.isMiss, ih]
        · simp [hnb, List.filter_append, FreeEvent.isMiss, ih]

/-- The mission loop never emits a territory-registry free event. -/
theorem freeMissSlots_no_terr (arr : List (Option Mission)) (i n : Nat) :
    (freeMissSlots arr i n).2.filter FreeEvent.isTerr = [] := by
  induction n generalizing arr i with
  | zero => rfl
  | succ m ih =>
    simp only [freeMissSlots]
    cases hc : arr[i]? with
    | none => simpa using ih arr (i + 1)
    | some o =>
      cases o with
      | none => simpa using ih arr (i + 1)
      | some t => simp [List.filter_append, FreeEvent.isTerr, ih]

/-- C9: `liberarMemoria` with a NULL registry is a no-op on that registry,
for every count argument: with both registries NULL nothing at all is
freed, and with only one NULL no free event ever touches the absent
registry.  The function is total — it cannot signal an error. -/
theorem liberarMemoria_null_noop (nT nM : Nat) (ts : Option (List (Option Territory)))
    (ms : Option (List (Option Mission))) :
    liberarMemoria none nT none nM
        = ({ territories := none, missions := none }, ([] : List FreeEvent)) ∧
    (liberarMemoria none nT ms nM).1.territories = none ∧
    (liberarMemoria none nT ms nM).2.filter FreeEvent.isTerr = [] ∧
    (liberarMemoria ts nT none nM).1.missions = none ∧
    (liberarMemoria ts nT none nM).2.filter FreeEvent.isMiss = [] := by
  refine ⟨rfl, ?_, ?_, ?_, ?_⟩
  · cases ms <;> rfl
  · cases ms with
    | none => rfl
    | some arr =>
      simp [liberarMemoria, List.filter_append, freeMissSlots_no_terr, FreeEvent.isTerr]
  · cases ts <;> rfl
  · cases ts with
    | none => rfl
    | some arr =>
      simp [liberarMemoria, List.filter_append, freeTerrSlots_no_miss, FreeEvent.isMiss]

end War
